import Mathlib

/-!
Shallow embedding of the cross-entity enrichment engine of the
flashduty-mcp-server repository (Go package `flashduty`), together with
proofs about its ID collection, batched resolution, fan-out error policy,
join/merge and timeline-detail transformation.

Conventions of the embedding:
- Go `int64` identifiers are embedded as `Int`; the code only compares and
  stores identifiers, so overflow never matters.
- Go maps (`map[int64]T`, `map[string]any`) are embedded as association
  lists.  Insertion replaces an existing key in place, so the contents
  coincide with Go map contents.  Where Go ranges over a map with
  unspecified iteration order (the deduplication sets, the
  `schedule_to_role_ids` map), the association list fixes one concrete
  order (first-insertion order); every theorem about such data is stated
  so that it only depends on the contents, which are deterministic.
- JSON `any` values appearing in timeline `detail` payloads are embedded
  as the inductive `JValue`.  Go's JSON decoder produces `float64` for
  numbers; `toInt64` accepts exactly the numeric cases, so `JValue.num`
  carries the integer value directly.
- Network calls are embedded by passing the remote endpoint as a function
  `List Int → Except String items` inside a `Client` record; a fetcher
  returns a `FetchOutcome` recording both the single request it issued
  (or `none` when it short-circuited) and its result.  Errors are strings,
  with the same wrapping prefixes as the Go `fmt.Errorf` calls.
-/

set_option autoImplicit false

namespace Flashduty

/-- Association-list lookup, mirroring Go map indexing `m[k]`. -/
def mlookup {κ α : Type} [DecidableEq κ] : List (κ × α) → κ → Option α
  | [], _ => none
  | (k, v) :: rest, key => if k = key then some v else mlookup rest key

/-- Association-list insertion, mirroring Go map assignment `m[k] = v`:
an existing key is overwritten in place, a new key is appended. -/
def minsert {κ α : Type} [DecidableEq κ] : List (κ × α) → κ → α → List (κ × α)
  | [], k, v => [(k, v)]
  | (k', v') :: rest, k, v =>
    if k' = k then (k, v) :: rest else (k', v') :: minsert rest k v

/-- JSON values, the embedding of Go `any` inside decoded payloads. -/
inductive JValue : Type where
  | null : JValue
  | bool : Bool → JValue
  | num : Int → JValue
  | str : String → JValue
  | arr : List JValue → JValue
  | obj : List (String × JValue) → JValue

/-- The embedding of Go `map[string]any`. -/
abbrev JMap := List (String × JValue)

/-- `PersonInfo` from the Go model (fields of `/person/infos` items). -/
structure PersonInfo : Type where
  personID : Int
  personName : String
  email : String
  avatar : String
  asRole : String
  deriving Repr, DecidableEq

/-- `TeamInfo` as decoded by `fetchTeamInfos` (`team_id`, `team_name`). -/
structure TeamInfo : Type where
  teamID : Int
  teamName : String
  deriving Repr, DecidableEq

/-- `ScheduleInfo` from the Go model. -/
structure ScheduleInfo : Type where
  scheduleID : Int
  scheduleName : String
  deriving Repr, DecidableEq

/-- One item of the `/schedule/infos` response: `id` and `name` are
pointers in the Go decoding struct, hence optional here. -/
structure ScheduleItem : Type where
  id : Option Int
  name : Option String
  deriving Repr, DecidableEq

/-- `ChannelInfo` from the Go model (with enriched name fields). -/
structure ChannelInfo : Type where
  channelID : Int
  channelName : String
  teamID : Int
  teamName : String
  creatorID : Int
  creatorName : String
  deriving Repr, DecidableEq

/-- One item of the `/channel/infos` response, as decoded by
`fetchChannelInfos` (no name fields for team/creator). -/
structure ChannelItem : Type where
  channelID : Int
  channelName : String
  teamID : Int
  creatorID : Int
  deriving Repr, DecidableEq

/-- The remote endpoints a `Client` can reach, one bulk-lookup function
per entity kind.  Each takes the identifier list sent in the request body
and yields either the decoded response items or a transport/API error. -/
structure Client : Type where
  personAPI : List Int → Except String (List PersonInfo)
  teamAPI : List Int → Except String (List TeamInfo)
  scheduleAPI : List Int → Except String (List ScheduleItem)
  channelAPI : List Int → Except String (List ChannelItem)

/-- Outcome of one fetcher run: the identifier list of the single request
it issued (`none` when it short-circuited without any network call), and
the value or error it returned. -/
structure FetchOutcome (α : Type) : Type where
  request : Option (List Int)
  result : Except String α
  deriving Repr

/-- The deduplication step shared by all four fetchers: Go builds a
`map[int64]struct\x7b\x7d` of the nonzero identifiers and then enumerates
its keys.  The association-list embedding enumerates them in first-seen
order; the contents (each nonzero input identifier exactly once) agree
with the Go set. -/
def dedupNonzero (ids : List Int) : List Int :=
  ids.foldl (fun acc id => if id ≠ 0 ∧ id ∉ acc then acc ++ [id] else acc) []

/-- `fetchPersonInfos`: empty or all-zero input short-circuits to an empty
map without a request; otherwise one request with the deduplicated set is
issued and the response items are keyed by their own `person_id`. -/
def fetchPersonInfos (api : List Int → Except String (List PersonInfo))
    (personIDs : List Int) : FetchOutcome (List (Int × PersonInfo)) :=
  if personIDs.isEmpty then ⟨none, .ok []⟩
  else
    let uniqueIDs := dedupNonzero personIDs
    if uniqueIDs.isEmpty then ⟨none, .ok []⟩
    else
      match api uniqueIDs with
      | .error e => ⟨some uniqueIDs, .error ("unable to fetch person information: " ++ e)⟩
      | .ok items =>
        ⟨some uniqueIDs, .ok (items.foldl (fun m it => minsert m it.personID it) [])⟩

/-- `fetchTeamInfos`, same shape as `fetchPersonInfos`. -/
def fetchTeamInfos (api : List Int → Except String (List TeamInfo))
    (teamIDs : List Int) : FetchOutcome (List (Int × TeamInfo)) :=
  if teamIDs.isEmpty then ⟨none, .ok []⟩
  else
    let uniqueIDs := dedupNonzero teamIDs
    if uniqueIDs.isEmpty then ⟨none, .ok []⟩
    else
      match api uniqueIDs with
      | .error e => ⟨some uniqueIDs, .error ("unable to fetch team information: " ++ e)⟩
      | .ok items =>
        ⟨some uniqueIDs, .ok (items.foldl (fun m it => minsert m it.teamID it) [])⟩

/-- `fetchScheduleInfos`: response items with a nil `id` are skipped, a
nil `name` becomes the empty string. -/
def fetchScheduleInfos (api : List Int → Except String (List ScheduleItem))
    (scheduleIDs : List Int) : FetchOutcome (List (Int × ScheduleInfo)) :=
  if scheduleIDs.isEmpty then ⟨none, .ok []⟩
  else
    let uniqueIDs := dedupNonzero scheduleIDs
    if uniqueIDs.isEmpty then ⟨none, .ok []⟩
    else
      match api uniqueIDs with
      | .error e => ⟨some uniqueIDs, .error ("unable to fetch schedule information: " ++ e)⟩
      | .ok items =>
        ⟨some uniqueIDs, .ok (items.foldl (fun m it =>
          match it.id with
          | none => m
          | some sid =>
            minsert m sid ⟨sid, match it.name with | none => "" | some n => n⟩) [])⟩

/-- `fetchChannelInfos`: response items become `ChannelInfo` records with
blank team/creator names. -/
def fetchChannelInfos (api : List Int → Except String (List ChannelItem))
    (channelIDs : List Int) : FetchOutcome (List (Int × ChannelInfo)) :=
  if channelIDs.isEmpty then ⟨none, .ok []⟩
  else
    let uniqueIDs := dedupNonzero channelIDs
    if uniqueIDs.isEmpty then ⟨none, .ok []⟩
    else
      match api uniqueIDs with
      | .error e => ⟨some uniqueIDs, .error ("unable to fetch channel information: " ++ e)⟩
      | .ok items =>
        ⟨some uniqueIDs, .ok (items.foldl (fun m it =>
          minsert m it.channelID ⟨it.channelID, it.channelName, it.teamID, "", it.creatorID, ""⟩) [])⟩

/-- Graceful degradation at a fan-out call site: a failed branch is
replaced by an empty mapping (`teamMap = make(map...)` in the Go error
arms). -/
def orEmptyMap {α : Type} (r : Except String (List (Int × α))) : List (Int × α) :=
  match r with
  | .ok m => m
  | .error _ => []

/-- `enrichChannels`: fill team and creator names into channel records.
Both fan-out branches (team fetch, person fetch) degrade gracefully, so
the call never returns an error.  On a lookup miss the copied record's
original field value is kept, exactly as in the Go loop which only
assigns on a hit. -/
def enrichChannels (c : Client) (channels : List ChannelInfo) :
    Except String (List ChannelInfo) :=
  if channels.isEmpty then .ok channels
  else
    let teamIDs := channels.foldl
      (fun acc ch => if ch.teamID ≠ 0 then acc ++ [ch.teamID] else acc) []
    let personIDs := channels.foldl
      (fun acc ch => if ch.creatorID ≠ 0 then acc ++ [ch.creatorID] else acc) []
    let teamMap := orEmptyMap (fetchTeamInfos c.teamAPI teamIDs).result
    let personMap := orEmptyMap (fetchPersonInfos c.personAPI personIDs).result
    .ok (channels.map (fun ch =>
      let ch1 := match mlookup teamMap ch.teamID with
        | some t => { ch with teamName := t.teamName }
        | none => ch
      match mlookup personMap ch1.creatorID with
        | some p => { ch1 with creatorName := p.personName }
        | none => ch1))

/-- `RawResponder` from the incident API. -/
structure RawResponder : Type where
  personID : Int
  assignedAt : Int
  acknowledgedAt : Int
  deriving Repr, DecidableEq

/-- `RawIncident` as received from the remote API.  `labels` is
`map[string]string`, `fields` is `map[string]any`. -/
structure RawIncident : Type where
  incidentID : String
  title : String
  description : String
  severity : String
  progress : String
  startTime : Int
  ackTime : Int
  closeTime : Int
  channelID : Int
  creatorID : Int
  closerID : Int
  responders : List RawResponder
  labels : List (String × String)
  fields : JMap

/-- `EnrichedResponder` in the output model. -/
structure EnrichedResponder : Type where
  personID : Int
  personName : String
  email : String
  assignedAt : Int
  acknowledgedAt : Int
  deriving Repr, DecidableEq

/-- `RawTimelineItem` from `/incident/feed`: a nil `detail` is `none`. -/
structure RawTimelineItem : Type where
  type : String
  createdAt : Int
  personID : Int
  detail : Option JMap

/-- `TimelineEvent` in the output model.  The Go `Detail any` field only
ever holds nil or a `map[string]any` in this code path, hence
`Option JMap`. -/
structure TimelineEvent : Type where
  type : String
  timestamp : Int
  operatorID : Int
  operatorName : String
  detail : Option JMap

/-- `AlertPreview` in the output model. -/
structure AlertPreview : Type where
  alertID : String
  title : String
  severity : String
  status : String
  startTime : Int
  labels : List (String × String)
  deriving Repr, DecidableEq

/-- `EnrichedIncident` in the output model. -/
structure EnrichedIncident : Type where
  incidentID : String
  title : String
  description : String
  severity : String
  progress : String
  startTime : Int
  ackTime : Int
  closeTime : Int
  channelID : Int
  channelName : String
  creatorID : Int
  creatorName : String
  creatorEmail : String
  closerID : Int
  closerName : String
  responders : List EnrichedResponder
  timeline : List TimelineEvent
  alertsPreview : List AlertPreview
  alertsTotal : Int
  labels : List (String × String)
  customFields : JMap

/-- One responder of the `enrichIncidents` join: name and email are
filled on a person-map hit, otherwise left at their zero value. -/
def enrichResponder (personMap : List (Int × PersonInfo)) (r : RawResponder) :
    EnrichedResponder :=
  let er : EnrichedResponder := ⟨r.personID, "", "", r.assignedAt, r.acknowledgedAt⟩
  match mlookup personMap r.personID with
  | some p => { er with personName := p.personName, email := p.email }
  | none => er

/-- The loop body of the `enrichIncidents` join: one enriched incident
per raw incident.  Go guards the responders loop with `len > 0` only to
keep a nil slice nil; a nil slice and an empty slice both embed to `[]`,
so the guard is dropped.  The timeline/alert fields are not populated on
this path and stay at their zero values. -/
def enrichIncident (personMap : List (Int × PersonInfo))
    (channelMap : List (Int × ChannelInfo)) (raw : RawIncident) : EnrichedIncident :=
  { incidentID := raw.incidentID
    title := raw.title
    description := raw.description
    severity := raw.severity
    progress := raw.progress
    startTime := raw.startTime
    ackTime := raw.ackTime
    closeTime := raw.closeTime
    channelID := raw.channelID
    channelName := match mlookup channelMap raw.channelID with
      | some ch => ch.channelName
      | none => ""
    creatorID := raw.creatorID
    creatorName := match mlookup personMap raw.creatorID with
      | some p => p.personName
      | none => ""
    creatorEmail := match mlookup personMap raw.creatorID with
      | some p => p.email
      | none => ""
    closerID := raw.closerID
    closerName := match mlookup personMap raw.closerID with
      | some p => p.personName
      | none => ""
    responders := raw.responders.map (enrichResponder personMap)
    timeline := []
    alertsPreview := []
    alertsTotal := 0
    labels := raw.labels
    customFields := raw.fields }

/-- The ID-collection loop at the top of `enrichIncidents`: creator,
closer and responder person identifiers, skipping zeros. -/
def collectIncidentPersonIDs (rawIncidents : List RawIncident) : List Int :=
  rawIncidents.foldl (fun acc inc =>
    let acc1 := if inc.creatorID ≠ 0 then acc ++ [inc.creatorID] else acc
    let acc2 := if inc.closerID ≠ 0 then acc1 ++ [inc.closerID] else acc1
    inc.responders.foldl
      (fun a r => if r.personID ≠ 0 then a ++ [r.personID] else a) acc2) []

/-- The channel-ID half of the same collection loop. -/
def collectIncidentChannelIDs (rawIncidents : List RawIncident) : List Int :=
  rawIncidents.foldl
    (fun acc inc => if inc.channelID ≠ 0 then acc ++ [inc.channelID] else acc) []

/-- `enrichIncidents`: person and channel resolution run in one errgroup
whose `Wait` returns an error exactly when some branch errored (which
branch's error is surfaced first is scheduling-dependent in Go; the
embedding surfaces the person branch's error first — every claim below
depends only on ok-versus-error).  Both branches are hard: an error
aborts the join. -/
def enrichIncidents (c : Client) (rawIncidents : List RawIncident) :
    Except String (List EnrichedIncident) :=
  match (fetchPersonInfos c.personAPI (collectIncidentPersonIDs rawIncidents)).result,
        (fetchChannelInfos c.channelAPI (collectIncidentChannelIDs rawIncidents)).result with
  | .error e, _ => .error e
  | .ok _, .error e => .error e
  | .ok personMap, .ok channelMap =>
    .ok (rawIncidents.map (enrichIncident personMap channelMap))

/-- `toInt64`: a JSON value is accepted as an identifier exactly when it
is numeric (Go accepts float64/int64/int; the JSON decoder produces
float64 for numbers). -/
def toInt64 : JValue → Option Int
  | .num n => some n
  | _ => none

/-- `extractPersonIDsFromDetail`: append the nonzero numeric entries of
an array-valued field to the accumulator; any other field shape
contributes nothing. -/
def extractPersonIDsFromDetail (detail : JMap) (field : String)
    (personIDs : List Int) : List Int :=
  match mlookup detail field with
  | some (.arr values) =>
    values.foldl (fun acc v =>
      match toInt64 v with
      | some id => if id ≠ 0 then acc ++ [id] else acc
      | none => acc) personIDs
  | _ => personIDs

/-- `collectTimelinePersonIDs`: the operator identifier of every item,
plus — depending on the event type — the person identifiers nested in
the `to` and `person_ids` fields of the detail payload. -/
def collectTimelinePersonIDs (items : List RawTimelineItem) : List Int :=
  items.foldl (fun acc item =>
    let acc1 := if item.personID ≠ 0 then acc ++ [item.personID] else acc
    match item.detail with
    | none => acc1
    | some d =>
      if item.type = "i_assign" ∨ item.type = "i_a_rspd" then
        extractPersonIDsFromDetail d "person_ids"
          (extractPersonIDsFromDetail d "to" acc1)
      else if item.type = "i_notify" then
        extractPersonIDsFromDetail d "to" acc1
      else acc1) []

/-- `copyMap`: Go rebuilds a fresh map from all entries of the input.  A
Go map has distinct keys and its range enumerates each entry once, so the
rebuild is exactly an append of the entries in enumeration order. -/
def copyMap (m : JMap) : JMap :=
  m.foldl (fun result kv => result ++ [kv]) []

/-- `enrichPersonIDsField`: when the field holds a JSON array, each
numeric entry becomes an object carrying `person_id` and, on a person-map
hit, `person_name`; non-numeric entries are skipped.  The rewritten array
replaces the field value in place.  A field that is not an array is left
untouched. -/
def enrichPersonIDsField (enriched : JMap) (field : String)
    (personMap : List (Int × PersonInfo)) : JMap :=
  match mlookup enriched field with
  | some (.arr values) =>
    let enrichedValues := values.foldl (fun acc v =>
      match toInt64 v with
      | none => acc
      | some id =>
        let entry : List (String × JValue) :=
          match mlookup personMap id with
          | some p => [("person_id", .num id), ("person_name", .str p.personName)]
          | none => [("person_id", .num id)]
        acc ++ [JValue.obj entry]) []
    minsert enriched field (.arr enrichedValues)
  | _ => enriched

/-- `enrichTimelineDetail`: nil passes through; otherwise the payload is
copied and, for the person-bearing event types only, the known fields are
rewritten in the copy. -/
def enrichTimelineDetail (eventType : String) (detail : Option JMap)
    (personMap : List (Int × PersonInfo)) : Option JMap :=
  match detail with
  | none => none
  | some d =>
    let enriched := copyMap d
    if eventType = "i_notify" then
      some (enrichPersonIDsField enriched "to" personMap)
    else if eventType = "i_assign" ∨ eventType = "i_a_rspd" then
      some (enrichPersonIDsField
        (enrichPersonIDsField enriched "to" personMap) "person_ids" personMap)
    else some enriched

/-- The loop body of `enrichTimelineItems`: one event per raw item. -/
def enrichTimelineEvent (personMap : List (Int × PersonInfo))
    (item : RawTimelineItem) : TimelineEvent :=
  { type := item.type
    timestamp := item.createdAt
    operatorID := item.personID
    operatorName := match mlookup personMap item.personID with
      | some p => p.personName
      | none => ""
    detail := enrichTimelineDetail item.type item.detail personMap }

/-- `enrichTimelineItems`: pure join of raw items against an
already-resolved person mapping. -/
def enrichTimelineItems (items : List RawTimelineItem)
    (personMap : List (Int × PersonInfo)) : List TimelineEvent :=
  items.map (enrichTimelineEvent personMap)

/-- Opaque stand-in for a Go `float64` value (`notify_step`): this code
path only copies it verbatim, never interprets it, so it is carried as an
uninterpreted bit pattern. -/
structure GoFloat : Type where
  bits : Nat
  deriving Repr, DecidableEq

/-- Time filter of an escalation rule; carried through verbatim by the
join.  The Go fields `End` and `Repeat` are Lean keywords and are
embedded as `end_` and `repeat_`. -/
structure TimeFilter : Type where
  start : String
  end_ : String
  repeat_ : List Int
  calID : String
  isOff : Bool
  deriving Repr, DecidableEq

/-- One alert-filter condition; carried through verbatim. -/
structure AlertCondition : Type where
  key : String
  oper : String
  vals : List String
  deriving Repr, DecidableEq

/-- An AND-group of conditions. -/
abbrev AlertFilterGroup := List AlertCondition

/-- OR-groups of AND-conditions. -/
abbrev AlertFilters := List AlertFilterGroup

/-- The `by` block of a raw escalation target (direct-notify
preferences).  The Go field name `By` is a Lean keyword; the record is
named `notifyBy` on both the raw and enriched side. -/
structure RawNotifyBy : Type where
  followPreference : Bool
  critical : List String
  warning : List String
  info : List String
  deriving Repr, DecidableEq

/-- A raw webhook entry of an escalation target (`settings` may be a nil
map). -/
structure RawWebhook : Type where
  type : String
  settings : Option JMap

/-- The raw target block of an escalation layer.  Go stores
`schedule_to_role_ids` as `map[int64][]int64`; the embedding fixes the
runtime's enumeration order as an association list — all theorems below
treat that order as the order "of the raw record". -/
structure RawTarget : Type where
  personIDs : List Int
  teamIDs : List Int
  scheduleToRoleIDs : List (Int × List Int)
  notifyBy : Option RawNotifyBy
  webhooks : List RawWebhook

/-- A raw escalation layer. -/
structure RawLayer : Type where
  maxTimes : Int
  notifyStep : GoFloat
  escalateWindow : Int
  forceEscalate : Bool
  target : Option RawTarget

/-- `rawEscalationRule` as decoded from `/channel/escalate/rule/list`. -/
structure RawEscalationRule : Type where
  ruleID : String
  ruleName : String
  description : String
  channelID : Int
  status : String
  priority : Int
  aggrWindow : Int
  layers : List RawLayer
  timeFilters : List TimeFilter
  filters : List (List AlertCondition)

/-- `PersonTarget` in the output model. -/
structure PersonTarget : Type where
  personID : Int
  personName : String
  email : String
  deriving Repr, DecidableEq

/-- `TeamTarget` in the output model (`members` is never populated on
this code path). -/
structure TeamTarget : Type where
  teamID : Int
  teamName : String
  members : List PersonTarget
  deriving Repr, DecidableEq

/-- `ScheduleTarget` in the output model. -/
structure ScheduleTarget : Type where
  scheduleID : Int
  scheduleName : String
  roleIDs : List Int
  deriving Repr, DecidableEq

/-- `NotifyBy` in the output model. -/
structure NotifyBy : Type where
  followPreference : Bool
  critical : List String
  warning : List String
  info : List String
  deriving Repr, DecidableEq

/-- `WebhookConfig` in the output model.  The Go field `Alias` is
embedded as `aliasName` (`alias` is taken by a Mathlib command). -/
structure WebhookConfig : Type where
  type : String
  aliasName : String
  settings : Option JMap

/-- `EscalationTarget` in the output model. -/
structure EscalationTarget : Type where
  persons : List PersonTarget
  teams : List TeamTarget
  schedules : List ScheduleTarget
  notifyBy : Option NotifyBy
  webhooks : List WebhookConfig

/-- `EscalationLayer` in the output model. -/
structure EscalationLayer : Type where
  layerIdx : Int
  timeout : Int
  notifyInterval : GoFloat
  maxTimes : Int
  forceEscalate : Bool
  target : Option EscalationTarget

/-- `EscalationRule` in the output model. -/
structure EscalationRule : Type where
  ruleID : String
  ruleName : String
  description : String
  channelID : Int
  channelName : String
  status : String
  priority : Int
  aggrWindow : Int
  layers : List EscalationLayer
  timeFilters : List TimeFilter
  filters : AlertFilters

/-- One person target of the escalation join: lookup-or-leave-blank. -/
def buildPersonTarget (personMap : List (Int × PersonInfo)) (pid : Int) :
    PersonTarget :=
  match mlookup personMap pid with
  | some p => ⟨pid, p.personName, p.email⟩
  | none => ⟨pid, "", ""⟩

/-- One team target of the escalation join: lookup-or-leave-blank. -/
def buildTeamTarget (teamMap : List (Int × TeamInfo)) (tid : Int) : TeamTarget :=
  match mlookup teamMap tid with
  | some t => ⟨tid, t.teamName, []⟩
  | none => ⟨tid, "", []⟩

/-- One schedule target of the escalation join, from one entry of the
`schedule_to_role_ids` map: lookup-or-leave-blank, role list carried
verbatim. -/
def buildScheduleTarget (scheduleMap : List (Int × ScheduleInfo))
    (sr : Int × List Int) : ScheduleTarget :=
  match mlookup scheduleMap sr.1 with
  | some s => ⟨sr.1, s.scheduleName, sr.2⟩
  | none => ⟨sr.1, "", sr.2⟩

/-- One webhook of the escalation join: type and settings verbatim, the
alias extracted from the settings when present as a string. -/
def buildWebhookConfig (wh : RawWebhook) : WebhookConfig :=
  { type := wh.type
    aliasName := match wh.settings with
      | some s =>
        match mlookup s "alias" with
        | some (.str a) => a
        | _ => ""
      | none => ""
    settings := wh.settings }

/-- The target block of one escalation layer.  Go guards each list build
with `len > 0` only to keep nil slices nil; nil and empty both embed to
`[]`, so the guards are dropped. -/
def buildEscalationTarget (personMap : List (Int × PersonInfo))
    (teamMap : List (Int × TeamInfo)) (scheduleMap : List (Int × ScheduleInfo))
    (t : RawTarget) : EscalationTarget :=
  { persons := t.personIDs.map (buildPersonTarget personMap)
    teams := t.teamIDs.map (buildTeamTarget teamMap)
    schedules := t.scheduleToRoleIDs.map (buildScheduleTarget scheduleMap)
    notifyBy := t.notifyBy.map (fun b => ⟨b.followPreference, b.critical, b.warning, b.info⟩)
    webhooks := t.webhooks.map buildWebhookConfig }

/-- One escalation layer of the join, with its position index. -/
def buildEscalationLayer (personMap : List (Int × PersonInfo))
    (teamMap : List (Int × TeamInfo)) (scheduleMap : List (Int × ScheduleInfo))
    (idx : Nat) (l : RawLayer) : EscalationLayer :=
  { layerIdx := (idx : Int)
    timeout := l.escalateWindow
    notifyInterval := l.notifyStep
    maxTimes := l.maxTimes
    forceEscalate := l.forceEscalate
    target := l.target.map (buildEscalationTarget personMap teamMap scheduleMap) }

/-- The join of one raw escalation rule against the four resolved
mappings: scalar fields verbatim, channel name by lookup-or-blank, time
filters and alert filters carried through verbatim, layers rebuilt in
order. -/
def buildEscalationRule (personMap : List (Int × PersonInfo))
    (teamMap : List (Int × TeamInfo)) (scheduleMap : List (Int × ScheduleInfo))
    (channelMap : List (Int × ChannelInfo)) (r : RawEscalationRule) :
    EscalationRule :=
  { ruleID := r.ruleID
    ruleName := r.ruleName
    description := r.description
    channelID := r.channelID
    channelName := match mlookup channelMap r.channelID with
      | some ch => ch.channelName
      | none => ""
    status := r.status
    priority := r.priority
    aggrWindow := r.aggrWindow
    layers := r.layers.enum.map
      (fun il => buildEscalationLayer personMap teamMap scheduleMap il.1 il.2)
    timeFilters := r.timeFilters.map
      (fun tf => ⟨tf.start, tf.end_, tf.repeat_, tf.calID, tf.isOff⟩)
    filters := r.filters.map (fun g => g.map (fun cond => ⟨cond.key, cond.oper, cond.vals⟩)) }

/-- The single ID-collection pass of `QueryEscalationRules`: person, team
and schedule identifier lists over all layers of all rules, skipping nil
targets and zero identifiers. -/
def collectEscalationIDs (items : List RawEscalationRule) :
    List Int × List Int × List Int :=
  items.foldl (fun acc r =>
    r.layers.foldl (fun acc l =>
      match l.target with
      | none => acc
      | some t =>
        let ps := t.personIDs.foldl
          (fun a pid => if pid ≠ 0 then a ++ [pid] else a) acc.1
        let ts := t.teamIDs.foldl
          (fun a tid => if tid ≠ 0 then a ++ [tid] else a) acc.2.1
        let ss := t.scheduleToRoleIDs.foldl
          (fun a sr => if sr.1 ≠ 0 then a ++ [sr.1] else a) acc.2.2
        (ps, ts, ss)) acc) ([], [], [])

/-- The enrichment core of `QueryEscalationRules` (after the rule list is
decoded, before marshalling): four fan-out branches, every one of which
degrades gracefully to an empty mapping on error, then the pure join.
The call therefore always produces a rule list and never an error. -/
def enrichEscalationRules (c : Client) (channelID : Int)
    (items : List RawEscalationRule) : List EscalationRule :=
  let ids := collectEscalationIDs items
  let personMap := orEmptyMap (fetchPersonInfos c.personAPI ids.1).result
  let teamMap := orEmptyMap (fetchTeamInfos c.teamAPI ids.2.1).result
  let scheduleMap := orEmptyMap (fetchScheduleInfos c.scheduleAPI ids.2.2).result
  let channelMap := orEmptyMap (fetchChannelInfos c.channelAPI [channelID]).result
  items.map (buildEscalationRule personMap teamMap scheduleMap channelMap)

/-- Shape test used to state the malformed-payload policy: is an
optional JSON value an array? -/
def isJsonArray : Option JValue → Bool
  | some (.arr _) => true
  | _ => false

/-! Concrete fixtures used by counterexamples and witnesses. -/

/-- A client whose person lookup succeeds and whose channel lookup fails
at the transport level. -/
def clientChannelDown : Client :=
  { personAPI := fun _ => .ok [⟨7, "Alice", "alice@example.com", "", ""⟩]
    teamAPI := fun _ => .ok []
    scheduleAPI := fun _ => .ok []
    channelAPI := fun _ => .error "connection refused" }

/-- An incident referencing channel 3 and creator 7. -/
def incidentChannelDown : RawIncident :=
  ⟨"inc-1", "DB down", "", "Critical", "Triggered", 100, 0, 0, 3, 7, 0, [], [], []⟩

/-- A client for the escalation-rule witness: person lookup succeeds,
channel lookup always fails. -/
def clientGrace : Client :=
  { personAPI := fun _ => .ok [⟨7, "Alice", "", "", ""⟩]
    teamAPI := fun _ => .ok []
    scheduleAPI := fun _ => .ok []
    channelAPI := fun _ => .error "boom" }

/-- An escalation rule with one layer targeting person 7. -/
def ruleGrace : RawEscalationRule :=
  { ruleID := "r1", ruleName := "escalate", description := "", channelID := 3
    status := "enabled", priority := 1, aggrWindow := 0
    layers := [⟨3, ⟨0⟩, 600, false, some ⟨[7], [], [], none, []⟩⟩]
    timeFilters := [], filters := [] }

/-- A timeline item whose operator also appears in its `to` field. -/
def dupTimelineItem : RawTimelineItem :=
  ⟨"i_assign", 10, 5, some [("to", .arr [.num 5])]⟩

/-- The person mapping of the `i_assign` scenario. -/
def assignPersonMap : List (Int × PersonInfo) := [(5, ⟨5, "Bob", "", "", ""⟩)]

/-- The detail payload of the `i_assign` scenario. -/
def assignDetail : JMap := [("to", .arr [.num 5, .num 6])]

/-- A detail payload whose `to` field is an array of non-numeric
entries. -/
def malformedDetail : JMap := [("to", .arr [.str "alice"])]

section Lemmas

/-- Folding an append over a list is the list itself. -/
theorem foldl_append_eq {α : Type} (l acc : List α) :
    l.foldl (fun r x => r ++ [x]) acc = acc ++ l := by
  induction l generalizing acc with
  | nil => simp
  | cons a l ih => simp [List.foldl_cons, ih, List.append_assoc]

/-- `copyMap` is deep-equal to its input. -/
theorem copyMap_eq (m : JMap) : copyMap m = m := by
  simpa using foldl_append_eq m []

/-- Membership in the deduplication fold. -/
theorem dedupNonzero_go_mem (ids : List Int) (acc : List Int) (x : Int) :
    x ∈ ids.foldl (fun acc id => if id ≠ 0 ∧ id ∉ acc then acc ++ [id] else acc) acc ↔
      x ∈ acc ∨ (x ≠ 0 ∧ x ∈ ids) := by
  induction ids generalizing acc with
  | nil => simp
  | cons a l ih =>
    rw [List.foldl_cons, ih]
    by_cases ha : a ≠ 0 ∧ a ∉ acc
    · rw [if_pos ha]
      constructor
      · rintro (h | h)
        · rcases List.mem_append.mp h with h | h
          · exact Or.inl h
          · have hxa : x = a := by simpa using h
            subst hxa
            exact Or.inr ⟨ha.1, List.mem_cons_self _ _⟩
        · exact Or.inr ⟨h.1, List.mem_cons_of_mem _ h.2⟩
      · rintro (h | ⟨hx, hm⟩)
        · exact Or.inl (List.mem_append.mpr (Or.inl h))
        · rcases List.mem_cons.mp hm with rfl | hm
          · exact Or.inl (List.mem_append.mpr (Or.inr (by simp)))
          · exact Or.inr ⟨hx, hm⟩
    · rw [if_neg ha]
      constructor
      · rintro (h | ⟨hx, hm⟩)
        · exact Or.inl h
        · exact Or.inr ⟨hx, List.mem_cons_of_mem _ hm⟩
      · rintro (h | ⟨hx, hm⟩)
        · exact Or.inl h
        · rcases List.mem_cons.mp hm with rfl | hm
          · rcases not_and_or.mp ha with h0 | hmem
            · exact absurd hx (by simpa using h0)
            · exact Or.inl (by simpa using hmem)
          · exact Or.inr ⟨hx, hm⟩

/-- Membership in the deduplicated identifier set: exactly the nonzero
input identifiers. -/
theorem dedupNonzero_mem (ids : List Int) (x : Int) :
    x ∈ dedupNonzero ids ↔ x ≠ 0 ∧ x ∈ ids := by
  unfold dedupNonzero
  rw [dedupNonzero_go_mem]
  simp

/-- The deduplication fold preserves `Nodup`. -/
theorem dedupNonzero_go_nodup (ids : List Int) (acc : List Int) (h : acc.Nodup) :
    (ids.foldl (fun acc id => if id ≠ 0 ∧ id ∉ acc then acc ++ [id] else acc) acc).Nodup := by
  induction ids generalizing acc with
  | nil => simpa
  | cons a l ih =>
    rw [List.foldl_cons]
    by_cases ha : a ≠ 0 ∧ a ∉ acc
    · rw [if_pos ha]
      refine ih _ ?_
      rw [List.nodup_append]
      refine ⟨h, List.nodup_singleton a, ?_⟩
      intro y hy hy2
      have hya : y = a := by simpa using hy2
      exact ha.2 (hya ▸ hy)
    · rw [if_neg ha]
      exact ih _ h

/-- The deduplicated identifier set has no duplicates. -/
theorem dedupNonzero_nodup (ids : List Int) : (dedupNonzero ids).Nodup :=
  dedupNonzero_go_nodup ids [] List.nodup_nil

/-- An all-zero input deduplicates to the empty set. -/
theorem dedupNonzero_all_zero (ids : List Int)
    (h : ids.all (fun id => id == 0) = true) : dedupNonzero ids = [] := by
  rw [List.eq_nil_iff_forall_not_mem]
  intro x hx
  rcases (dedupNonzero_mem ids x).mp hx with ⟨hx0, hxm⟩
  exact hx0 (by simpa using List.all_eq_true.mp h x hxm)

/-- An input with a nonzero identifier deduplicates to a nonempty set. -/
theorem dedupNonzero_ne_nil (ids : List Int)
    (h : ids.any (fun id => id != 0) = true) : dedupNonzero ids ≠ [] := by
  rcases List.any_eq_true.mp h with ⟨x, hxm, hx0⟩
  intro hnil
  have : x ∈ dedupNonzero ids := (dedupNonzero_mem ids x).mpr ⟨by simpa using hx0, hxm⟩
  simp [hnil] at this

/-- A fold whose step only accumulates elements satisfying `p` preserves
`p` over all elements of the result. -/
theorem foldl_preserve {α β : Type} (p : α → Prop) (f : List α → β → List α)
    (hf : ∀ acc b x, (∀ y ∈ acc, p y) → x ∈ f acc b → p x) (l : List β) :
    ∀ acc, (∀ y ∈ acc, p y) → ∀ x ∈ l.foldl f acc, p x := by
  induction l with
  | nil => intro acc hacc; simpa using hacc
  | cons b l ih =>
    intro acc hacc
    exact ih (f acc b) (fun y hy => hf acc b y hacc hy)

/-- `extractPersonIDsFromDetail` only appends nonzero identifiers. -/
theorem extractPersonIDsFromDetail_nonzero (d : JMap) (field : String)
    (acc : List Int) (hacc : ∀ y ∈ acc, y ≠ 0) :
    ∀ x ∈ extractPersonIDsFromDetail d field acc, x ≠ 0 := by
  unfold extractPersonIDsFromDetail
  match mlookup d field with
  | none => exact hacc
  | some (.null) => exact hacc
  | some (.bool _) => exact hacc
  | some (.num _) => exact hacc
  | some (.str _) => exact hacc
  | some (.obj _) => exact hacc
  | some (.arr values) =>
    refine foldl_preserve (fun y => y ≠ 0) _ ?_ values acc hacc
    intro a v x ha hx
    cases v with
    | num n =>
      simp only [toInt64] at hx
      by_cases h0 : n = 0
      · rw [if_neg (by simp [h0])] at hx
        exact ha x hx
      · rw [if_pos h0] at hx
        rcases List.mem_append.mp hx with h | h
        · exact ha x h
        · have hxn : x = n := by simpa using h
          rw [hxn]; exact h0
    | null => simp only [toInt64] at hx; exact ha x hx
    | bool b => simp only [toInt64] at hx; exact ha x hx
    | str s => simp only [toInt64] at hx; exact ha x hx
    | arr xs => simp only [toInt64] at hx; exact ha x hx
    | obj fs => simp only [toInt64] at hx; exact ha x hx

/-- Appending one guarded-nonzero identifier preserves all-nonzero. -/
theorem append_if_nonzero {acc : List Int} {id x : Int}
    (hacc : ∀ y ∈ acc, y ≠ 0)
    (hx : x ∈ (if id ≠ 0 then acc ++ [id] else acc)) : x ≠ 0 := by
  by_cases h0 : id ≠ 0
  · rw [if_pos h0] at hx
    rcases List.mem_append.mp hx with h | h
    · exact hacc x h
    · have hxi : x = id := by simpa using h
      rw [hxi]; exact h0
  · rw [if_neg h0] at hx
    exact hacc x hx

/-- Every identifier collected from a timeline batch is nonzero. -/
theorem collectTimelinePersonIDs_mem_nonzero (items : List RawTimelineItem) :
    ∀ x ∈ collectTimelinePersonIDs items, x ≠ 0 := by
  unfold collectTimelinePersonIDs
  refine foldl_preserve (fun y => y ≠ 0) _ ?_ items [] (by simp)
  intro acc item x hacc hx
  obtain ⟨ty, ca, pid, det⟩ := item
  dsimp only at hx
  have hacc1 : ∀ y ∈ (if pid ≠ 0 then acc ++ [pid] else acc), y ≠ 0 :=
    fun y hy => append_if_nonzero hacc hy
  cases det with
  | none => exact hacc1 x hx
  | some d =>
    dsimp only at hx
    by_cases hty : ty = "i_assign" ∨ ty = "i_a_rspd"
    · rw [if_pos hty] at hx
      exact extractPersonIDsFromDetail_nonzero d "person_ids" _
        (extractPersonIDsFromDetail_nonzero d "to" _ hacc1) x hx
    · rw [if_neg hty] at hx
      by_cases hty2 : ty = "i_notify"
      · rw [if_pos hty2] at hx
        exact extractPersonIDsFromDetail_nonzero d "to" _ hacc1 x hx
      · rw [if_neg hty2] at hx
        exact hacc1 x hx

/-- A field that is not array-shaped is left untouched by
`enrichPersonIDsField`. -/
theorem enrichPersonIDsField_nonarray (m : JMap) (field : String)
    (pmap : List (Int × PersonInfo))
    (h : isJsonArray (mlookup m field) = false) :
    enrichPersonIDsField m field pmap = m := by
  unfold enrichPersonIDsField
  rcases hm : mlookup m field with _ | v
  · rfl
  · cases v with
    | arr xs => rw [hm] at h; simp [isJsonArray] at h
    | null => rfl
    | bool b => rfl
    | num n => rfl
    | str s => rfl
    | obj fs => rfl

/-- Inserting at one key leaves lookups at every other key unchanged. -/
theorem mlookup_minsert_ne {κ α : Type} [DecidableEq κ] (m : List (κ × α))
    (k : κ) (v : α) (g : κ) (h : g ≠ k) :
    mlookup (minsert m k v) g = mlookup m g := by
  induction m with
  | nil => simp [minsert, mlookup, Ne.symm h]
  | cons kv rest ih =>
    obtain ⟨k', v'⟩ := kv
    by_cases hk : k' = k
    · subst hk
      simp [minsert, mlookup, Ne.symm h]
    · by_cases hg : k' = g <;> simp [minsert, hk, mlookup, hg, ih, h]

/-- `enrichPersonIDsField` rewrites at most its own field: lookups at
every other key are unchanged. -/
theorem enrichPersonIDsField_lookup_other (m : JMap) (f' : String)
    (pmap : List (Int × PersonInfo)) (g : String) (hne : g ≠ f') :
    mlookup (enrichPersonIDsField m f' pmap) g = mlookup m g := by
  unfold enrichPersonIDsField
  rcases hm : mlookup m f' with _ | v
  · rfl
  · cases v with
    | arr xs => exact mlookup_minsert_ne m f' _ g hne
    | null => rfl
    | bool b => rfl
    | num n => rfl
    | str s => rfl
    | obj fs => rfl

end Lemmas

section Claims

/-- C1 counterexample: `enrichIncidents` does resolve a person branch and
a channel branch concurrently, yet when the channel batch lookup fails
while the person lookup succeeds, the call returns an error — not an
enriched result. -/
theorem enrichIncidents_channel_error_propagates :
    (fetchPersonInfos clientChannelDown.personAPI
        (collectIncidentPersonIDs [incidentChannelDown])).result =
      .ok [(7, ⟨7, "Alice", "alice@example.com", "", ""⟩)] ∧
    enrichIncidents clientChannelDown [incidentChannelDown] =
      .error "unable to fetch channel information: connection refused" := by
  exact ⟨rfl, rfl⟩

/-- C1 (amended): in the escalation-rule enrichment call, which also
resolves person and channel branches concurrently, a failing channel
batch lookup is degraded gracefully — the call still returns one result
per rule, with channel display names left blank — whatever the person
branch returns; the incident enrichment call instead propagates such a
failure as a hard error. -/
theorem enrichEscalationRules_channel_failure_graceful (c : Client)
    (channelID : Int) (items : List RawEscalationRule)
    (hchan : ∀ ids, ∃ e, c.channelAPI ids = .error e) :
    (enrichEscalationRules c channelID items).length = items.length ∧
    ∀ r ∈ enrichEscalationRules c channelID items, r.channelName = "" := by
  have hmap : orEmptyMap (fetchChannelInfos c.channelAPI [channelID]).result = [] := by
    unfold fetchChannelInfos
    by_cases h2 : (dedupNonzero [channelID]).isEmpty
    · simp [h2, orEmptyMap]
    · obtain ⟨e, he⟩ := hchan (dedupNonzero [channelID])
      simp [h2, he, orEmptyMap]
  unfold enrichEscalationRules
  rw [hmap]
  constructor
  · simp
  · intro r hr
    rcases List.mem_map.mp hr with ⟨raw, hraw, rfl⟩
    show (buildEscalationRule _ _ _ [] raw).channelName = ""
    rfl

/-- C1 witness: a concrete client with a failing channel endpoint and a
succeeding person endpoint, applied to one escalation rule. -/
theorem enrichEscalationRules_channel_failure_graceful_witness :
    (enrichEscalationRules clientGrace 3 [ruleGrace]).length = 1 ∧
    ∀ r ∈ enrichEscalationRules clientGrace 3 [ruleGrace], r.channelName = "" :=
  enrichEscalationRules_channel_failure_graceful clientGrace 3 [ruleGrace]
    (fun _ => ⟨"boom", rfl⟩)

/-- C2 counterexample: the timeline ID collector does not deduplicate —
one `i_assign` item whose operator 5 also appears in its `to` field
yields the identifier list `[5, 5]`. -/
theorem collectTimelinePersonIDs_duplicate :
    collectTimelinePersonIDs [dupTimelineItem] = [5, 5] ∧
    ¬ (collectTimelinePersonIDs [dupTimelineItem]).Nodup := by
  refine ⟨rfl, ?_⟩
  rw [show collectTimelinePersonIDs [dupTimelineItem] = [5, 5] from rfl]
  decide

/-- C2 (amended): the identifier list returned by the timeline ID
collector contains no zero identifiers, and the collector is a total
pure function of its input (it performs no network I/O and cannot fail);
it may contain duplicates, which are removed downstream by the batch
resolver. -/
theorem collectTimelinePersonIDs_nonzero_total (items : List RawTimelineItem) :
    (collectTimelinePersonIDs items).all (fun id => id != 0) = true := by
  rw [List.all_eq_true]
  intro x hx
  simpa using collectTimelinePersonIDs_mem_nonzero items x hx

/-- C3: for every raw incident and arbitrary resolved person/channel
mappings, every enriched display field equals the mapped record's name
when the referenced identifier is present in the mapping and the empty
string when it is absent, while the raw identifier field is always
copied through unchanged; responder entries follow the same rule. -/
theorem enrichIncident_lookup_or_blank (pmap : List (Int × PersonInfo))
    (cmap : List (Int × ChannelInfo)) (raw : RawIncident) :
    (enrichIncident pmap cmap raw).creatorID = raw.creatorID ∧
    (enrichIncident pmap cmap raw).creatorName =
      (match mlookup pmap raw.creatorID with | some p => p.personName | none => "") ∧
    (enrichIncident pmap cmap raw).creatorEmail =
      (match mlookup pmap raw.creatorID with | some p => p.email | none => "") ∧
    (enrichIncident pmap cmap raw).closerID = raw.closerID ∧
    (enrichIncident pmap cmap raw).closerName =
      (match mlookup pmap raw.closerID with | some p => p.personName | none => "") ∧
    (enrichIncident pmap cmap raw).channelID = raw.channelID ∧
    (enrichIncident pmap cmap raw).channelName =
      (match mlookup cmap raw.channelID with | some ch => ch.channelName | none => "") ∧
    (enrichIncident pmap cmap raw).responders = raw.responders.map (enrichResponder pmap) ∧
    (∀ r : RawResponder, (enrichResponder pmap r).personID = r.personID ∧
      (enrichResponder pmap r).personName =
        (match mlookup pmap r.personID with | some p => p.personName | none => "")) := by
  refine ⟨rfl, rfl, rfl, rfl, rfl, rfl, rfl, rfl, fun r => ⟨?_, ?_⟩⟩
  · cases h : mlookup pmap r.personID <;> simp [enrichResponder, h]
  · cases h : mlookup pmap r.personID <;> simp [enrichResponder, h]

/-- C4: the `i_assign` scenario — detail `to: [5, 6]` with person 5
resolving to Bob is rewritten to structured pairs, with `person_name`
present exactly on the resolved entry and list order preserved. -/
theorem enrichTimelineDetail_assign_scenario :
    enrichTimelineDetail "i_assign" (some assignDetail) assignPersonMap =
      some [("to", .arr [.obj [("person_id", .num 5), ("person_name", .str "Bob")],
                         .obj [("person_id", .num 6)]])] := by
  rfl

/-- C5: for every entity kind, an identifier list that is empty or
contains only zero identifiers resolves to an empty mapping with no
error and without issuing any remote request. -/
theorem fetchInfos_empty_shortcircuit
    (pa : List Int → Except String (List PersonInfo))
    (ta : List Int → Except String (List TeamInfo))
    (sa : List Int → Except String (List ScheduleItem))
    (ca : List Int → Except String (List ChannelItem))
    (ids : List Int) (h : ids.all (fun id => id == 0) = true) :
    fetchPersonInfos pa ids = ⟨none, .ok []⟩ ∧
    fetchTeamInfos ta ids = ⟨none, .ok []⟩ ∧
    fetchScheduleInfos sa ids = ⟨none, .ok []⟩ ∧
    fetchChannelInfos ca ids = ⟨none, .ok []⟩ := by
  have hded := dedupNonzero_all_zero ids h
  by_cases hi : ids.isEmpty
  · refine ⟨?_, ?_, ?_, ?_⟩ <;>
      simp [fetchPersonInfos, fetchTeamInfos, fetchScheduleInfos, fetchChannelInfos, hi]
  · refine ⟨?_, ?_, ?_, ?_⟩ <;>
      simp [fetchPersonInfos, fetchTeamInfos, fetchScheduleInfos, fetchChannelInfos, hi, hded]

/-- C5 witness: the list `[0, 0]` short-circuits all four resolvers. -/
theorem fetchInfos_empty_shortcircuit_witness :
    (([0, 0] : List Int).all (fun id => id == 0) = true) ∧
    (fetchPersonInfos (fun _ => .ok []) [0, 0] = ⟨none, .ok []⟩ ∧
     fetchTeamInfos (fun _ => .ok []) [0, 0] = ⟨none, .ok []⟩ ∧
     fetchScheduleInfos (fun _ => .ok []) [0, 0] = ⟨none, .ok []⟩ ∧
     fetchChannelInfos (fun _ => .ok []) [0, 0] = ⟨none, .ok []⟩) :=
  ⟨by decide, fetchInfos_empty_shortcircuit _ _ _ _ [0, 0] (by decide)⟩

/-- C6 counterexample: the non-empty list `[0, 0]` contains duplicates
and zero values, yet the batch resolver issues no lookup request at
all. -/
theorem fetchPersonInfos_zero_list_no_request :
    (fetchPersonInfos (fun _ => .ok []) [0, 0]).request = none := by
  rfl

/-- C6 (amended): for every input identifier list containing at least
one nonzero identifier, the batch resolver issues exactly one lookup
request, and the deduplicated identifier set it sends contains each
nonzero input identifier exactly once and no other identifiers; a
non-empty list of only zeros issues no request. -/
theorem fetchPersonInfos_single_request_dedup
    (api : List Int → Except String (List PersonInfo)) (ids : List Int)
    (h : ids.any (fun id => id != 0) = true) :
    (fetchPersonInfos api ids).request = some (dedupNonzero ids) ∧
    (dedupNonzero ids).Nodup ∧
    (∀ id : Int, id ∈ dedupNonzero ids ↔ (id ≠ 0 ∧ id ∈ ids)) := by
  have hne : ids ≠ [] := by
    rcases List.any_eq_true.mp h with ⟨x, hxm, _⟩
    exact List.ne_nil_of_mem hxm
  have hi : ids.isEmpty = false := by simpa [List.isEmpty_iff] using hne
  have hd : (dedupNonzero ids).isEmpty = false := by
    simpa [List.isEmpty_iff] using dedupNonzero_ne_nil ids h
  refine ⟨?_, dedupNonzero_nodup ids, fun id => dedupNonzero_mem ids id⟩
  unfold fetchPersonInfos
  rw [hi]
  simp only [Bool.false_eq_true, if_false]
  rw [hd]
  simp only [Bool.false_eq_true, if_false]
  cases api (dedupNonzero ids) <;> rfl

/-- C6 witness: the list `[0, 5, 5, 7]` produces one request carrying
`[5, 7]`. -/
theorem fetchPersonInfos_single_request_dedup_witness :
    (([0, 5, 5, 7] : List Int).any (fun id => id != 0) = true) ∧
    ((fetchPersonInfos (fun _ => .ok []) [0, 5, 5, 7]).request =
       some (dedupNonzero [0, 5, 5, 7]) ∧
     (dedupNonzero [0, 5, 5, 7]).Nodup ∧
     (∀ id : Int, id ∈ dedupNonzero [0, 5, 5, 7] ↔
        (id ≠ 0 ∧ id ∈ ([0, 5, 5, 7] : List Int)))) :=
  ⟨by decide, fetchPersonInfos_single_request_dedup _ [0, 5, 5, 7] (by decide)⟩

/-- C7: the timeline detail transformer starts from a copy that is
deep-equal to the input payload (the input value itself is never
rewritten in the pure embedding), and for every event type with no
person-bearing fields — `i_ack` or any unrecognized type — the returned
detail equals the input payload. -/
theorem enrichTimelineDetail_passthrough (t : String) (d : JMap)
    (pmap : List (Int × PersonInfo))
    (h1 : t ≠ "i_notify") (h2 : t ≠ "i_assign") (h3 : t ≠ "i_a_rspd") :
    copyMap d = d ∧ enrichTimelineDetail t (some d) pmap = some d := by
  refine ⟨copyMap_eq d, ?_⟩
  simp [enrichTimelineDetail, h1, h2, h3, copyMap_eq]

/-- C7 witness: an `i_ack` payload passes through unchanged. -/
theorem enrichTimelineDetail_passthrough_witness :
    ("i_ack" ≠ "i_notify" ∧ "i_ack" ≠ "i_assign" ∧ "i_ack" ≠ "i_a_rspd") ∧
    (copyMap [("note", JValue.str "done")] = [("note", JValue.str "done")] ∧
     enrichTimelineDetail "i_ack" (some [("note", JValue.str "done")]) [] =
       some [("note", JValue.str "done")]) :=
  ⟨⟨by decide, by decide, by decide⟩,
   enrichTimelineDetail_passthrough "i_ack" [("note", JValue.str "done")] []
     (by decide) (by decide) (by decide)⟩

/-- C8 counterexample: a `to` field that is an array of non-numeric
entries is not left unrewritten — the transformer rewrites it to the
empty array, dropping the entries. -/
theorem enrichTimelineDetail_rewrites_nonnumeric_array :
    enrichTimelineDetail "i_notify" (some malformedDetail) [] =
      some [("to", JValue.arr [])] ∧
    some [("to", JValue.arr [])] ≠ some malformedDetail := by
  refine ⟨rfl, ?_⟩
  simp [malformedDetail]

/-- C8 (amended): for every event type and every detail payload, a known
person-bearing field (`to` or `person_ids`) whose value is not a JSON
array at all is left unrewritten in the output by the timeline detail
transformer — the returned payload's value at that field equals the
input's, even when the other known field is an array and is rewritten —
and no error is raised (array-shaped fields are instead rewritten with
their non-numeric entries dropped). -/
theorem enrichTimelineDetail_nonarray_field_unrewritten (t : String)
    (d : JMap) (pmap : List (Int × PersonInfo)) (f : String)
    (hf : f = "to" ∨ f = "person_ids")
    (h : isJsonArray (mlookup d f) = false) :
    Option.map (fun d' => mlookup d' f) (enrichTimelineDetail t (some d) pmap) =
      some (mlookup d f) := by
  have hto : mlookup (enrichPersonIDsField d "to" pmap) "person_ids" =
      mlookup d "person_ids" :=
    enrichPersonIDsField_lookup_other d "to" pmap "person_ids" (by decide)
  unfold enrichTimelineDetail
  simp only [copyMap_eq]
  by_cases h1 : t = "i_notify"
  · rw [if_pos h1]
    rcases hf with rfl | rfl
    · rw [enrichPersonIDsField_nonarray d "to" pmap h]
      rfl
    · show some (mlookup (enrichPersonIDsField d "to" pmap) "person_ids") =
        some (mlookup d "person_ids")
      rw [hto]
  · rw [if_neg h1]
    by_cases h2 : t = "i_assign" ∨ t = "i_a_rspd"
    · rw [if_pos h2]
      rcases hf with rfl | rfl
      · rw [enrichPersonIDsField_nonarray d "to" pmap h]
        show some (mlookup (enrichPersonIDsField d "person_ids" pmap) "to") =
          some (mlookup d "to")
        rw [enrichPersonIDsField_lookup_other d "person_ids" pmap "to" (by decide)]
      · have h' : isJsonArray
            (mlookup (enrichPersonIDsField d "to" pmap) "person_ids") = false := by
          rw [hto]; exact h
        rw [enrichPersonIDsField_nonarray
          (enrichPersonIDsField d "to" pmap) "person_ids" pmap h']
        show some (mlookup (enrichPersonIDsField d "to" pmap) "person_ids") =
          some (mlookup d "person_ids")
        rw [hto]
    · rw [if_neg h2]
      rfl

/-- C8 witness: a mixed `i_assign` payload whose `to` field is a string
while `person_ids` is a genuine array — the `to` field survives
unrewritten in the output. -/
theorem enrichTimelineDetail_nonarray_field_unrewritten_witness :
    (("to" : String) = "to" ∨ ("to" : String) = "person_ids") ∧
    isJsonArray (mlookup
      [("to", JValue.str "x"), ("person_ids", JValue.arr [JValue.num 5])] "to") = false ∧
    Option.map (fun d' => mlookup d' "to")
      (enrichTimelineDetail "i_assign"
        (some [("to", JValue.str "x"), ("person_ids", JValue.arr [JValue.num 5])]) []) =
      some (mlookup
        [("to", JValue.str "x"), ("person_ids", JValue.arr [JValue.num 5])] "to") :=
  ⟨Or.inl rfl, rfl,
   enrichTimelineDetail_nonarray_field_unrewritten "i_assign"
     [("to", JValue.str "x"), ("person_ids", JValue.arr [JValue.num 5])] [] "to"
     (Or.inl rfl) rfl⟩

/-- C9: nested collections — an incident's responder list and an
escalation layer's person/team/schedule target lists — are rebuilt
element-wise by the same lookup-or-leave-blank rule, preserving the
order of the raw record (for the schedule targets, the enumeration
order of the `schedule_to_role_ids` map as fixed by the embedding). -/
theorem enrich_nested_collections_elementwise (pmap : List (Int × PersonInfo))
    (tmap : List (Int × TeamInfo)) (smap : List (Int × ScheduleInfo))
    (cmap : List (Int × ChannelInfo)) (raw : RawIncident) (t : RawTarget)
    (r : RawEscalationRule) :
    (enrichIncident pmap cmap raw).responders = raw.responders.map (enrichResponder pmap) ∧
    (buildEscalationTarget pmap tmap smap t).persons =
      t.personIDs.map (buildPersonTarget pmap) ∧
    (buildEscalationTarget pmap tmap smap t).teams =
      t.teamIDs.map (buildTeamTarget tmap) ∧
    (buildEscalationTarget pmap tmap smap t).schedules =
      t.scheduleToRoleIDs.map (buildScheduleTarget smap) ∧
    (buildEscalationRule pmap tmap smap cmap r).layers.length = r.layers.length ∧
    (∀ pid : Int, (buildPersonTarget pmap pid).personID = pid ∧
      (buildPersonTarget pmap pid).personName =
        (match mlookup pmap pid with | some p => p.personName | none => "")) ∧
    (∀ tid : Int, (buildTeamTarget tmap tid).teamID = tid ∧
      (buildTeamTarget tmap tid).teamName =
        (match mlookup tmap tid with | some tm => tm.teamName | none => "")) ∧
    (∀ sr : Int × List Int, (buildScheduleTarget smap sr).scheduleID = sr.1 ∧
      (buildScheduleTarget smap sr).roleIDs = sr.2 ∧
      (buildScheduleTarget smap sr).scheduleName =
        (match mlookup smap sr.1 with | some s => s.scheduleName | none => "")) := by
  refine ⟨rfl, rfl, rfl, rfl, ?_, fun pid => ⟨?_, ?_⟩, fun tid => ⟨?_, ?_⟩,
    fun sr => ⟨?_, ?_, ?_⟩⟩
  · simp [buildEscalationRule]
  · cases h : mlookup pmap pid <;> simp [buildPersonTarget, h]
  · cases h : mlookup pmap pid <;> simp [buildPersonTarget, h]
  · cases h : mlookup tmap tid <;> simp [buildTeamTarget, h]
  · cases h : mlookup tmap tid <;> simp [buildTeamTarget, h]
  · cases h : mlookup smap sr.1 <;> simp [buildScheduleTarget, h]
  · cases h : mlookup smap sr.1 <;> simp [buildScheduleTarget, h]
  · cases h : mlookup smap sr.1 <;> simp [buildScheduleTarget, h]

/-- C10: the join stage produces exactly one output record per input
record, in input order, and copies every non-display field of each raw
record verbatim into the corresponding output record. -/
theorem enrich_output_shape_verbatim (pmap : List (Int × PersonInfo))
    (cmap : List (Int × ChannelInfo)) (raws : List RawIncident)
    (items : List RawTimelineItem) :
    (raws.map (enrichIncident pmap cmap)).length = raws.length ∧
    enrichTimelineItems items pmap = items.map (enrichTimelineEvent pmap) ∧
    (enrichTimelineItems items pmap).length = items.length ∧
    (∀ raw : RawIncident,
      (enrichIncident pmap cmap raw).incidentID = raw.incidentID ∧
      (enrichIncident pmap cmap raw).title = raw.title ∧
      (enrichIncident pmap cmap raw).description = raw.description ∧
      (enrichIncident pmap cmap raw).severity = raw.severity ∧
      (enrichIncident pmap cmap raw).progress = raw.progress ∧
      (enrichIncident pmap cmap raw).startTime = raw.startTime ∧
      (enrichIncident pmap cmap raw).ackTime = raw.ackTime ∧
      (enrichIncident pmap cmap raw).closeTime = raw.closeTime ∧
      (enrichIncident pmap cmap raw).channelID = raw.channelID ∧
      (enrichIncident pmap cmap raw).creatorID = raw.creatorID ∧
      (enrichIncident pmap cmap raw).closerID = raw.closerID ∧
      (enrichIncident pmap cmap raw).labels = raw.labels ∧
      (enrichIncident pmap cmap raw).customFields = raw.fields) ∧
    (∀ item : RawTimelineItem,
      (enrichTimelineEvent pmap item).type = item.type ∧
      (enrichTimelineEvent pmap item).timestamp = item.createdAt ∧
      (enrichTimelineEvent pmap item).operatorID = item.personID) :=
  ⟨by simp, rfl, by simp [enrichTimelineItems],
   fun raw => ⟨rfl, rfl, rfl, rfl, rfl, rfl, rfl, rfl, rfl, rfl, rfl, rfl, rfl⟩,
   fun item => ⟨rfl, rfl, rfl⟩⟩

end Claims

end Flashduty
